import Mathlib

/-!
Verification of the parallel LLM task-dispatch engine of the
multilingual RAG dataset-construction pipeline.

The development shallowly embeds the Python sources:
  * `packages/rag/generation/1_Keyword_llm/core.py` — JSONL/TXT chunk
    loaders, the retrying per-item runner `_one_job`, and the `main`
    dispatch loop (sequential and thread-pool variants);
  * `packages/rag/generation/1_Keyword_llm/clients.py` — `generate_keywords`
    and its post-processing / validation / fallback helpers;
  * `packages/rag/generation/2_Question_llm/core.py` — `_normalize_questions`;
  * `Take away/llm_parallel_template.py` — `parse_response`, the buffered
    result collection of `main`, and the exponential backoff of
    `call_chat_completions`;
  * `Take away/core_parallel(answer).py` — the streaming write+flush sink of
    `parallel_answer_generation`.

Python strings are modelled as Lean `String`; `str.strip`, `str.lower` and
slicing `s[:n]` are embedded as executable char-list operations (`pyStrip`,
`pyLower`, `pyTake`) so that all statements evaluate by `decide`/`rfl`.
External collaborators (the JSON library, the HTTP client, prompt
templates) are modelled as abstract inputs: a JSON parse outcome is a value
of an inductive type, an LLM invocation is a function returning
`Except String (List String)` (an exception message or a response).
Thread-pool completion order is modelled as an arbitrary permutation of the
submission indices, the only observable effect of the `as_completed`
iteration.
-/

/-- Python `str.strip()` (no arguments): remove whitespace from both ends.
Executable model over the character list of the string. -/
def pyStrip (s : String) : String :=
  ⟨((s.data.dropWhile Char.isWhitespace).reverse.dropWhile Char.isWhitespace).reverse⟩

/-- Python `str.strip(chars)`: remove any of the given characters from both
ends. -/
def pyStripChars (cs : List Char) (s : String) : String :=
  ⟨((s.data.dropWhile (fun c => cs.contains c)).reverse.dropWhile
      (fun c => cs.contains c)).reverse⟩

/-- Python `str.lower()` (ASCII-relevant part, matching the keyword data the
pipeline manipulates). -/
def pyLower (s : String) : String := ⟨s.data.map Char.toLower⟩

/-- Python slicing `s[:n]` on a string (by code points). -/
def pyTake (s : String) (n : Nat) : String := ⟨s.data.take n⟩

/-- One chunk record as built by the loaders in
`1_Keyword_llm/core.py` (`_load_from_jsonl` / `_load_from_txt`): the
claim-relevant fields `text`, `source`, `page`.  (The loader also copies the
optional `quality_score`/`length`/`_quality` fields verbatim when present;
they are inert bookkeeping and are not carried here.) -/
structure Chunk where
  text : String
  source : String
  page : Int
deriving DecidableEq, Repr

/-- The outcome of `json.loads` on one stripped line of the input file, as
seen by `_load_from_jsonl` (core.py:32-66).  The JSON library itself is an
external collaborator, so a line is modelled by its parse outcome:
`blank` (the stripped line is empty), `malformed` (json.loads raises), or
`record text source page` (a parsed object; `text` is the raw value of its
"text" field before stripping, `source` the resolved
`obj.get("source", obj.get("file", "unknown"))`, `page` the resolved
`int(obj.get("page", 0) or 0)`). -/
inductive JsonLine
  | blank
  | malformed
  | record (text source : String) (page : Int)
deriving DecidableEq, Repr

/-- What `_load_from_jsonl` contributes for one line: blank lines and
malformed lines are skipped, as is a parsed record whose stripped text is
empty; otherwise a chunk with the stripped text is produced. -/
def parseJsonLine : JsonLine → Option Chunk
  | .blank => none
  | .malformed => none
  | .record t s p => if pyStrip t = "" then none else some ⟨pyStrip t, s, p⟩

/-- `_load_from_jsonl` (core.py:32-66): the append-loop over the lines. -/
def loadFromJsonl : List JsonLine → List Chunk
  | [] => []
  | l :: ls =>
    match parseJsonLine l with
    | none => loadFromJsonl ls
    | some c => c :: loadFromJsonl ls

/-- The seven-line scenario of the spec: lines 3 and 5 (1-based) are
malformed JSON, the other five are valid records. -/
def sevenLineInput : List JsonLine :=
  [ .record "alpha" "doc.pdf" 1
  , .record "beta" "doc.pdf" 2
  , .malformed
  , .record "gamma" "doc.pdf" 3
  , .malformed
  , .record "delta" "doc.pdf" 4
  , .record "epsilon" "doc.pdf" 5 ]

/-- One line of the legacy text chunk file as classified by the line-based
branch cascade of `_load_from_txt` (core.py:69-115).  A line is classified
by the first branch that consumes it: a brace-shaped line whose JSON parse
succeeds (`jsonOk`, carrying the raw text field), a tab-separated line with
three fields (`tsv`), a `|||`-separated line with three fields (`pipe`,
fields already stripped per the source), or none of these (`unparsed`,
which also covers blank lines). -/
inductive TxtLine
  | blank
  | jsonOk (text source : String) (page : Int)
  | tsv (src : String) (pg : Int) (txt : String)
  | pipe (src : String) (pg : Int) (txt : String)
  | unparsed
deriving DecidableEq, Repr

/-- The item (if any) a classified line contributes in the line-based phase
of `_load_from_txt`: a JSON line needs non-empty stripped text, a TSV line
non-empty stripped third field, a pipe line a non-empty third field; an
empty source falls back to "unknown" for TSV/pipe lines. -/
def parseTxtLine : TxtLine → Option Chunk
  | .blank => none
  | .jsonOk t s p => if pyStrip t = "" then none else some ⟨pyStrip t, s, p⟩
  | .tsv src pg txt =>
    if pyStrip txt = "" then none
    else some ⟨pyStrip txt, if src = "" then "unknown" else src, pg⟩
  | .pipe src pg txt =>
    if txt = "" then none
    else some ⟨txt, if src = "" then "unknown" else src, pg⟩
  | .unparsed => none

/-- The header-block phase of `_load_from_txt` (core.py:120-139): each
`[<source> | page N]` header match contributes the text up to the next
header; blocks with empty stripped bodies are dropped.  A block is given as
(source, page, raw body slice). -/
def parseBlocks (blocks : List (String × Int × String)) : List Chunk :=
  blocks.filterMap fun b =>
    if pyStrip b.2.2 = "" then none else some ⟨pyStrip b.2.2, b.1, b.2.1⟩

/-- `_load_from_txt` (core.py:69-139): the line-based parsers win exactly
when they jointly yield at least 5 items; otherwise their result is
discarded and the header-block parse is returned. -/
def loadFromTxt (lines : List TxtLine) (blocks : List (String × Int × String)) :
    List Chunk :=
  let tmp := lines.filterMap parseTxtLine
  if 5 ≤ tmp.length then tmp else parseBlocks blocks

/-- The output record built by `_make_record` inside `_one_job`
(1_Keyword_llm/core.py:219-240): `chunk_id` is the submission index `idx`,
`preview` is the first 120 characters of the full text, and the `error` key
is present only when a truthy (non-empty) error string is supplied.
(The conditional copies of `quality_score`/`_quality` from the input record
are inert bookkeeping and not carried.) -/
structure KRecord where
  chunk_id : Nat
  source : String
  page : Int
  text : String
  keywords : List String
  preview : String
  content_type : String
  error : Option String
deriving DecidableEq, Repr

/-- The result of one `_one_job` run together with the number of
`generate_keywords` invocation attempts it made. -/
structure JobOutcome where
  record : KRecord
  calls : Nat
deriving DecidableEq, Repr

/-- `_make_record` (core.py:219-240).  `err = some e` models a call with
`error=str(last_err)`; Python omits the key when the string is falsy
(empty), hence the inner emptiness test. -/
def makeRecord (idx : Nat) (c : Chunk) (contentType : String)
    (kws : List String) (err : Option String) : KRecord :=
  { chunk_id := idx
    source := c.source
    page := c.page
    text := c.text
    keywords := kws
    preview := pyTake c.text 120
    content_type := contentType
    error := match err with
      | some e => if e = "" then none else some e
      | none => none }

/-- The success-path coercion of `_one_job` (core.py:252-258): drop entries
whose stripped form is empty; if nothing remains use the three
`fallback_kw_i` placeholders; if fewer than three remain pad with
`supplementary_i` placeholders; finally truncate to three (`kws[:3]`). -/
def coerceKeywords (ks : List String) : List String :=
  let kws := ks.filter fun k => pyStrip k ≠ ""
  let kws :=
    if kws = [] then ["fallback_kw_1", "fallback_kw_2", "fallback_kw_3"]
    else if kws.length < 3 then
      kws ++ (List.range (3 - kws.length)).map fun i =>
        "supplementary_" ++ toString (i + 1)
    else kws
  kws.take 3

/-- The `error_fallback_{i+1}` placeholders produced when retries are
exhausted (core.py:265). -/
def errorFallbackKeywords : List String :=
  ["error_fallback_1", "error_fallback_2", "error_fallback_3"]

/-- The retry loop of `_one_job` (core.py:245-270).  `invoker attempt` is
the outcome of the `generate_keywords` call on the given attempt: `.ok ks`
a returned keyword list, `.error e` an exception with message `e`.  The
loop, structured on the remaining retries (first argument; the source's
`attempt < retries` test corresponds to `remaining > 0`), runs attempts
`attempt, attempt+1, ...`; between
failed attempts the source sleeps `(attempt+1)*backoff` seconds, which has
no effect on the produced record and is analysed separately as
`linearBackoffDelay`.  The trailing `unknown_error` record after the
Python loop is unreachable (every iteration returns) and has no
counterpart here. -/
def oneJobAux (invoker : Nat → Except String (List String)) (idx : Nat)
    (c : Chunk) (contentType : String) : Nat → Nat → JobOutcome
  | 0, attempt =>
    match invoker attempt with
    | .ok ks =>
      { record := makeRecord idx c contentType (coerceKeywords ks) none
        calls := attempt + 1 }
    | .error e =>
      { record := makeRecord idx c contentType errorFallbackKeywords (some e)
        calls := attempt + 1 }
  | r + 1, attempt =>
    match invoker attempt with
    | .ok ks =>
      { record := makeRecord idx c contentType (coerceKeywords ks) none
        calls := attempt + 1 }
    | .error _ => oneJobAux invoker idx c contentType r (attempt + 1)

/-- `_one_job` (core.py:205-276) for submission index `idx` and input chunk
`c`: `retries + 1` total attempts are available.  The content type is
computed once from the full text by `_detect_content_type` (a pure scoring
function over indicator substrings) before the loop; it is threaded through
as the `contentType` argument.  The text sent to the LLM
(`_trim full_text max_chars`) only parameterizes the invoker. -/
def oneJob (invoker : Nat → Except String (List String)) (retries : Nat)
    (idx : Nat) (c : Chunk) (contentType : String) : JobOutcome :=
  oneJobAux invoker idx c contentType retries 0

/-- The per-index results of the dispatch phase of `main`
(core.py:362-397): index `i` is paired with chunk `i` by `enumerate`, and
job `i` runs `_one_job i (chunks[i])`.  `invoker i` is the attempt-indexed
LLM behaviour for item `i`, `detect` the content-type computation. -/
def keywordJobs (invoker : Nat → Nat → Except String (List String))
    (retries : Nat) (detect : String → String) (chunks : List Chunk) :
    List KRecord :=
  chunks.enum.map fun p => (oneJob (invoker p.1) retries p.1 p.2 (detect p.2.text)).record

/-- The output lines written by `main` (core.py:362-397): with
`workers == 1` the records are written in submission order; with more
workers every job is submitted once up front and records are written in
`as_completed` order, modelled by the completion order `order` over the
submission indices (a permutation of `range N` for a completed run). -/
def keywordMainOutput (invoker : Nat → Nat → Except String (List String))
    (retries : Nat) (detect : String → String) (chunks : List Chunk)
    (workers : Nat) (order : List Nat) : List KRecord :=
  let jobs := keywordJobs invoker retries detect chunks
  if workers = 1 then jobs else order.filterMap fun i => jobs[i]?

/-- Python `needle in hay` prefix step: does `pre` start the list `l`. -/
def listStartsWith : List Char → List Char → Bool
  | [], _ => true
  | _ :: _, [] => false
  | a :: as, b :: bs => a == b && listStartsWith as bs

/-- Python substring containment `needle in hay` over the char lists. -/
def strContainsAux (needle : List Char) : List Char → Bool
  | [] => listStartsWith needle []
  | c :: cs => listStartsWith needle (c :: cs) || strContainsAux needle cs

/-- Python `needle in hay` for strings. -/
def strContains (hay needle : String) : Bool :=
  strContainsAux needle.data hay.data

/-- The cycling pad loop of `_generate_fallback_keywords`
(clients.py:697-699): `while len(base_words) < count:
base_words.extend(base_words[:count - len(base_words)])`.  Each pass with a
non-empty list adds at least one element, so `count` passes always suffice;
the fuel argument makes the recursion structural with identical behaviour
on every input the source can reach (the list is empty only when `count`
is 0, where the Python loop body never runs either). -/
def padCycleGo (count : Nat) : Nat → List String → List String
  | 0, acc => acc
  | fuel + 1, acc =>
    if acc.length < count then
      padCycleGo count fuel (acc ++ acc.take (count - acc.length))
    else acc

/-- `_generate_fallback_keywords` (clients.py:673-701): language-specific
base placeholder words, an `_Error`-style suffix on the first `count` words
when an error context is given, cycling pad up to `count`, and a final
truncation to `count`. -/
def generateFallbackKeywords (lang : String) (count : Nat)
    (errorContext : String) : List String :=
  let baseWords :=
    if lang = "en" ∨ lang = "english" then
      ["Key_Concept", "Main_Topic", "Core_Content", "Important_Info", "Relevant_Term"]
    else if lang = "zh" ∨ lang = "chinese" then
      ["關鍵概念", "核心內容", "重要信息", "主要話題", "相關術語"]
    else if lang = "ja" ∨ lang = "japanese" then
      ["キーワード", "重要語", "主要概念", "核心内容", "関連用語"]
    else if lang = "mixed" then
      ["核心概念", "Key_Concept", "キーワード", "Main_Topic", "重要内容"]
    else
      ["Concept", "Topic", "Content", "Information", "Term"]
  let baseWords :=
    if errorContext ≠ "" then
      let suffix :=
        if lang = "en" ∨ lang = "english" then "_Error"
        else if lang = "ja" ∨ lang = "japanese" then "_エラー"
        else "_錯誤"
      (baseWords.take count).map fun w => w ++ suffix
    else baseWords
  (padCycleGo count count baseWords).take count

/-- The `re.sub(r'^\d+[.)]\s*', '', kw)` numbering removal of
`_postprocess_keywords` (clients.py:643): one or more leading digits
followed by `.` or `)` and optional whitespace are removed when present. -/
def stripNumbering (s : String) : String :=
  let digits := s.data.takeWhile Char.isDigit
  match digits, s.data.drop digits.length with
  | _ :: _, c :: cs =>
    if c = '.' ∨ c = ')' then ⟨cs.dropWhile Char.isWhitespace⟩ else s
  | _, _ => s

/-- The English keyword shape test `re.match(r'^[a-zA-Z][a-zA-Z\s\-_]{1,40}$', kw)`
(clients.py:648). -/
def enKeywordOk (s : String) : Bool :=
  match s.data with
  | [] => false
  | c :: cs =>
    c.isAlpha && decide (1 ≤ cs.length) && decide (cs.length ≤ 40)
      && cs.all fun d => d.isAlpha || d.isWhitespace || d == '-' || d == '_'

/-- CJK ideograph range `一-鿿` used by the language checks. -/
def isCjkChar (c : Char) : Bool :=
  decide (0x4e00 ≤ c.toNat ∧ c.toNat ≤ 0x9fff)

/-- Kana ranges `぀-ゟ` and `゠-ヿ`. -/
def isKanaChar (c : Char) : Bool :=
  decide ((0x3040 ≤ c.toNat ∧ c.toNat ≤ 0x309f) ∨ (0x30a0 ≤ c.toNat ∧ c.toNat ≤ 0x30ff))

/-- Python `str.title()` (ASCII model): a letter is uppercased when the
previous character is not a letter and lowercased otherwise, as applied by
`_postprocess_keywords` to validated English keywords. -/
def pyTitleGo : List Char → Bool → List Char
  | [], _ => []
  | c :: cs, prevCased =>
    (if prevCased then c.toLower else c.toUpper) :: pyTitleGo cs c.isAlpha

/-- Python `str.title()` on a string. -/
def pyTitle (s : String) : String := ⟨pyTitleGo s.data false⟩

/-- The per-keyword cleaning step of `_postprocess_keywords`
(clients.py:639-658): strip whitespace, strip quote/punctuation characters,
remove leading numbering, then apply the language-specific shape filter.
Returns the cleaned keyword when kept. -/
def cleanKeyword (lang : String) (kw : String) : Option String :=
  let kw := stripNumbering (pyStripChars ['"', '\'', '.', ',', ';'] (pyStrip kw))
  if lang = "en" ∨ lang = "english" then
    if enKeywordOk kw then some (pyTitle kw) else none
  else if lang = "zh" ∨ lang = "chinese" then
    if 1 < kw.length ∧ kw.length < 20 then some kw else none
  else if lang = "ja" ∨ lang = "japanese" then
    if (1 < kw.length ∧ kw.length < 15) ∧ kw.data.any (fun c => isKanaChar c || isCjkChar c)
    then some kw else none
  else
    if 1 < kw.length ∧ kw.length < 50 then some kw else none

/-- The order-preserving case-insensitive dedup of `_postprocess_keywords`
(clients.py:661-667). -/
def dedupByLower (seen : List String) : List String → List String
  | [] => []
  | kw :: kws =>
    if seen.contains (pyLower kw) then dedupByLower seen kws
    else kw :: dedupByLower (pyLower kw :: seen) kws

/-- `_postprocess_keywords` (clients.py:631-670): fallback on an empty
input list, per-keyword cleaning, case-insensitive dedup, truncation to
`2 * expected_count`; an empty survivor list stays empty. -/
def postprocessKeywords (keywords : List String) (lang : String)
    (expectedCount : Nat) : List String :=
  if keywords = [] then generateFallbackKeywords lang expectedCount ""
  else (dedupByLower [] (keywords.filterMap (cleanKeyword lang))).take (expectedCount * 2)

/-- The fallback-marker substrings of `_is_valid_keywords`
(clients.py:598-605). -/
def fallbackIndicators : List String :=
  [ "fallback", "emergency", "error", "supplementary"
  , "Error", "Emergency", "Fallback", "invalid"
  , "Key_Concept", "Main_Topic", "Core_Content"
  , "關鍵概念", "核心內容", "重要信息", "主要話題"
  , "キーワード", "重要語", "主要概念", "核心内容"
  , "emergency_kw", "fallback_kw", "supplementary_" ]

/-- `_is_valid_keywords` (clients.py:591-628): empty lists are invalid; a
list more than half of whose entries contain a fallback marker is invalid
(`fallback_count > len(keywords) * 0.5`, exact on integers as
`2 * fallback_count > len`); otherwise the language-specific aliveness
check must find at least one keyword containing a character of the
language's alphabet. -/
def isValidKeywords (keywords : List String) (lang : String) : Bool :=
  if keywords = [] then false
  else
    let fallbackCount :=
      (keywords.filter fun kw => fallbackIndicators.any fun ind => strContains kw ind).length
    if 2 * fallbackCount > keywords.length then false
    else if lang = "en" ∨ lang = "english" then
      keywords.any fun kw => kw.data.any Char.isAlpha
    else if lang = "zh" ∨ lang = "chinese" then
      keywords.any fun kw => kw.data.any isCjkChar
    else if lang = "ja" ∨ lang = "japanese" then
      keywords.any fun kw => kw.data.any fun c => isKanaChar c || isCjkChar c
    else true

/-- `generate_keywords` (clients.py:88-130).  Everything that can raise —
the whole `_call_llm_with_retry` chain down to the HTTP client — happens
inside the `try`, and its outcome is the `llmCall` argument (`.error e`
models a raised exception with message `str(e)`).  Prompt selection and the
config lookup, the only statements outside the `try`, are pure string/dict
formatting with no failure path and no influence on the returned value's
shape, so they are not carried.  The result is `Except` so that the
no-propagation property is a statement, not a typing artefact: a raise
would be `.error`, and the theorems show the function always returns
`.ok`. -/
def generateKeywords (llmCall : Except String (List String)) (text : String)
    (n : Nat) (lang : String) : Except String (List String) :=
  if pyStrip text = "" then .ok (generateFallbackKeywords lang n "")
  else
    match llmCall with
    | .error e => .ok (generateFallbackKeywords lang n e)
    | .ok ks =>
      let pp := postprocessKeywords ks lang n
      if isValidKeywords pp lang then .ok pp
      else .ok (generateFallbackKeywords lang n "invalid_extraction")

/-- One question object as produced by `_normalize_questions`
(2_Question_llm/core.py:31-82): the four fields its placeholders carry.
Genuinely returned question dicts that pass the `q.get("text")` filter are
carried with the same shape. -/
structure Question where
  text : String
  lang : String
  difficulty : String
  topic : String
deriving DecidableEq, Repr

/-- One entry of the incoming `keywords` list: Python filters with
`isinstance(k, str) and k.strip()`, so an entry is either a non-string
(`junk`) or a string. -/
inductive KVal
  | junk
  | str (s : String)
deriving DecidableEq, Repr

/-- One entry of an incoming question list: Python filters with
`isinstance(q, dict) and q.get("text")`, so an entry is either not a
question dict (`junk`) or a question object. -/
inductive QEntry
  | junk
  | q (question : Question)
deriving DecidableEq, Repr

/-- One entry of the incoming `keyword_questions` list: not a dict
(`junk`), or a dict carrying a `keyword` string (via `str(...)`) and,
when `isinstance(item.get("questions"), list)` holds, a question list. -/
inductive KwEntry
  | junk
  | entry (keyword : String) (questions : Option (List QEntry))
deriving DecidableEq, Repr

/-- The argument of `_normalize_questions`: the JSON object extracted from
the raw LLM response by `_safe_json_extract`, projected to the three fields
the normalizer reads. -/
structure QData where
  keywords : List KVal
  base_questions : List QEntry
  keyword_questions : List KwEntry
deriving DecidableEq, Repr

/-- One normalized keyword block: a keyword with its (fixed-cardinality)
question list. -/
structure KwOut where
  keyword : String
  questions : List Question
deriving DecidableEq, Repr

/-- The normalized payload returned by `_normalize_questions`. -/
structure QOut where
  keywords : List String
  base_questions : List Question
  keyword_questions : List KwOut
deriving DecidableEq, Repr

/-- The keyword filter of `_normalize_questions`:
`[k for k in (data.get("keywords") or []) if isinstance(k, str) and k.strip()]`. -/
def kvalFilter : KVal → Option String
  | .junk => none
  | .str s => if pyStrip s = "" then none else some s

/-- The question filter `[q for q in ... if isinstance(q, dict) and q.get("text")]`. -/
def validQ : QEntry → Option Question
  | .junk => none
  | .q question => if question.text = "" then none else some question

/-- The `while len(kws) < 3: kws.append(f"KW_{len(kws)+1}")` pad
(core.py:43-44): the loop appends `KW_{ℓ+1}`, `KW_{ℓ+2}`, ... up to
`KW_3`, i.e. the tail of the literal list starting at the current
length. -/
def padKw (l : List String) : List String :=
  if 3 ≤ l.length then l else l ++ (["KW_1", "KW_2", "KW_3"].drop l.length)

/-- The base-question placeholder appended when fewer than `expect_base`
base questions survive (core.py:51-56); `i` is the length of the list the
placeholder is appended to, so its text numbers it `i+1`. -/
def basePlaceholder (i : Nat) : Question :=
  { text := "Summarize the next key point from the chunk (" ++ toString (i + 1) ++ ")."
    lang := "en", difficulty := "easy", topic := "overview" }

/-- The `while len(bq) < expect_base` pad loop (core.py:50-56). -/
def padBase (l : List Question) (expectBase : Nat) : List Question :=
  l ++ (List.range (expectBase - l.length)).map fun j => basePlaceholder (l.length + j)

/-- The per-keyword placeholder question (core.py:73-79). -/
def kwPlaceholder (kw : String) (i : Nat) : Question :=
  { text := "Ask an explanatory question about keyword '" ++ kw ++ "' ("
      ++ toString (i + 1) ++ ")."
    lang := "en", difficulty := "medium", topic := "keyword" }

/-- The `while len(qs) < expect_kw` pad loop (core.py:73-79). -/
def padKwQ (kw : String) (l : List Question) (expectKw : Nat) : List Question :=
  l ++ (List.range (expectKw - l.length)).map fun j => kwPlaceholder kw (l.length + j)

/-- The candidate search of `_normalize_questions` (core.py:64-68): the
first provided entry whose `str(item.get("keyword", "")).strip().lower()`
equals `kw.lower()`. -/
def findKwEntry (provided : List KwEntry) (kw : String) : Option KwEntry :=
  provided.find? fun e =>
    match e with
    | .entry k _ => pyLower (pyStrip k) == pyLower kw
    | .junk => false

/-- The question block computed for one keyword (core.py:62-80): the found
candidate's question list (when it is a list) filtered and truncated to
`expect_kw`, then padded with keyword placeholders. -/
def questionsFor (provided : List KwEntry) (expectKw : Nat) (kw : String) :
    List Question :=
  let qs0 :=
    match findKwEntry provided kw with
    | some (.entry _ (some qs)) => (qs.filterMap validQ).take expectKw
    | _ => []
  padKwQ kw qs0 expectKw

/-- `_normalize_questions` (2_Question_llm/core.py:31-82). -/
def normalizeQuestions (d : QData) (expectBase expectKw : Nat) : QOut :=
  let kws := padKw ((d.keywords.filterMap kvalFilter).take 3)
  { keywords := kws
    base_questions := padBase ((d.base_questions.filterMap validQ).take expectBase) expectBase
    keyword_questions := kws.map fun kw => ⟨kw, questionsFor d.keyword_questions expectKw kw⟩ }

/-- Re-reading a normalized payload as normalizer input: the round trip
`_safe_json_extract(json.dumps(out))` of the spec's
`normalize(normalize_to_string(normalize(raw)))` is the identity on the
JSON structure (json.dumps of these str/list/dict values parses back to
itself), so it maps each field back into the corresponding entry type. -/
def toQData (o : QOut) : QData :=
  { keywords := o.keywords.map KVal.str
    base_questions := o.base_questions.map QEntry.q
    keyword_questions := o.keyword_questions.map fun e =>
      KwEntry.entry e.keyword (some (e.questions.map QEntry.q)) }

/-- Concrete normalizer input whose extracted keywords differ only by
letter case: `{"keywords": ["A", "a"]}`. -/
def caseCollidingData : QData :=
  { keywords := [KVal.str "A", KVal.str "a"]
    base_questions := []
    keyword_questions := [] }

/-- The payload of the template's answer task (`parse_response`,
llm_parallel_template.py:113-117): `{"answer": ...}`. -/
structure AnswerPayload where
  answer : String
deriving DecidableEq, Repr

/-- The raw model output as seen by `parse_response` for the answer task:
`extracted` is the `_safe_json` outcome (`none` when no `{...}` substring
parses; otherwise the parsed object's `answer` field when that field is a
string), and `body` is the full raw content string used by the
fallback `content.strip()[:1000]`. -/
structure AnswerRaw where
  extracted : Option (Option String)
  body : String
deriving DecidableEq, Repr

/-- The answer branch of `parse_response` (llm_parallel_template.py:113-117):
a non-empty extracted answer is stripped and returned; otherwise the whole
content is stripped and truncated to 1000 characters. -/
def parseAnswerResponse (raw : AnswerRaw) : AnswerPayload :=
  match raw.extracted with
  | some (some a) =>
    if pyStrip a = "" then ⟨pyTake (pyStrip raw.body) 1000⟩ else ⟨pyStrip a⟩
  | _ => ⟨pyTake (pyStrip raw.body) 1000⟩

/-- `json.dumps` of an answer payload as raw content for re-normalization:
`_safe_json` on the dumped string recovers the payload, and the raw body is
the serialized text itself. -/
def serializeAnswer (p : AnswerPayload) : AnswerRaw :=
  { extracted := some (some p.answer)
    body := "\x7b\"answer\": \"" ++ p.answer ++ "\"\x7d" }

/-- A sink state: the records durably written to the output file and the
completed-but-unwritten records held in memory. -/
structure SinkState (α : Type) where
  written : List α
  pending : List α
deriving DecidableEq, Repr

/-- The states traversed by the result loop of `parallel_answer_generation`
(core_parallel(answer).py:264-289) on a given completion sequence: from
each post-write state, the next completed record is pending alone until its
`out_f.write` + `out_f.flush` makes it durable.  Both the success and the
failure branch write and flush immediately. -/
def answerSinkGo {α : Type} (written : List α) : List α → List (SinkState α)
  | [] => [⟨written, []⟩]
  | r :: rest => ⟨written, []⟩ :: ⟨written, [r]⟩ :: answerSinkGo (written ++ [r]) rest

/-- All states of the streaming answer sink on a completion sequence. -/
def answerSinkStates {α : Type} (rs : List α) : List (SinkState α) :=
  answerSinkGo [] rs

/-- The states traversed by `main` of `llm_parallel_template.py` (234-250):
each completed future's result is appended to the in-memory `results` list
(nothing is written during collection), and `write_jsonl` writes everything
once after the pool drains. -/
def templateSinkStates {α : Type} (rs : List α) : List (SinkState α) :=
  ((List.range (rs.length + 1)).map fun k => ⟨[], rs.take k⟩) ++ [⟨rs, []⟩]

/-- The linear backoff of `_one_job` (1_Keyword_llm/core.py:263) and of the
question runner (2_Question_llm/core.py:211): after failed attempt
`attempt` the runner sleeps `(attempt + 1) * backoff` seconds. -/
def linearBackoffDelay (backoff : ℚ) (attempt : ℕ) : ℚ :=
  ((attempt : ℚ) + 1) * backoff

/-- The exponential backoff of `call_chat_completions`
(llm_parallel_template.py:169): after failed attempt `attempt` the caller
sleeps `backoff_base ** attempt + 0.1 * attempt` seconds. -/
def templateBackoffDelay (base : ℚ) (attempt : ℕ) : ℚ :=
  base ^ attempt + (1 / 10) * (attempt : ℚ)

/-- The exponential backoff of `_call_llm_with_retry` (clients.py:246):
`time.sleep(2 ** attempt)`. -/
def clientsBackoffDelay (attempt : ℕ) : ℚ :=
  2 ^ attempt

/-- Concrete legacy-text input: a single TSV line, below the 5-item
threshold. -/
def txtLinesEx : List TxtLine := [TxtLine.tsv "s" 1 "hello"]

/-- Concrete header-block input for the same file. -/
def txtBlocksEx : List (String × Int × String) := [("b", 2, " body ")]

/-- Concrete two-chunk input for the dispatch theorems. -/
def chunksEx : List Chunk := [⟨"hello", "a.pdf", 1⟩, ⟨"world", "b.pdf", 2⟩]

/-- A deterministic mock LLM behaviour (per item, per attempt) that always
returns the same keyword list. -/
def kwInvokerEx : Nat → Nat → Except String (List String) :=
  fun _ _ => Except.ok ["Alpha", "Beta", "Gamma"]

/-- A content-type computation stub for concrete runs. -/
def detectEx : String → String := fun _ => "general"

/-- Exception messages for the always-raising mock invoker. -/
def errsEx : Nat → String := fun a => "boom_" ++ toString a

/-- A mock `generate_keywords` behaviour that raises on every attempt. -/
def failingInvoker : Nat → Except String (List String) :=
  fun a => Except.error (errsEx a)

/-- A concrete chunk for runner-level witnesses. -/
def chunkEx : Chunk := ⟨"hello world", "a.pdf", 1⟩

/-- Concrete normalizer input with case-insensitively distinct keywords. -/
def distinctKeywordData : QData :=
  { keywords := [KVal.str "Alpha", KVal.str "Beta", KVal.str "Gamma"]
    base_questions := []
    keyword_questions := [] }

/-- Concrete raw answer content with a non-empty extractable answer. -/
def answerRawEx : AnswerRaw := { extracted := some (some "The answer"), body := "" }

/-- A non-empty string stays non-empty under right-append. -/
theorem str_append_ne_left (s t : String) (h : s ≠ "") : s ++ t ≠ "" := by
  intro he
  apply h
  have hd : (s ++ t).data = ("" : String).data := by rw [he]
  rw [String.data_append] at hd
  have hempty : ("" : String).data = [] := rfl
  rw [hempty] at hd
  obtain ⟨h1, _⟩ := List.append_eq_nil.mp hd
  cases s with
  | mk l =>
    simp only [String.data] at h1
    subst h1
    rfl

/-- The line loop of `_load_from_jsonl` computes the `filterMap` of the
per-line contribution. -/
theorem loadFromJsonl_eq_filterMap (ls : List JsonLine) :
    loadFromJsonl ls = ls.filterMap parseJsonLine := by
  induction ls with
  | nil => rfl
  | cons l ls ih =>
    rw [loadFromJsonl, List.filterMap_cons]
    cases parseJsonLine l <;> simp [ih]

/-- Claim C6: the JSONL task source skips blank lines, JSON-parse failures
and records with empty text, without aborting and without emitting
placeholders (the output is exactly the filterMap of the per-line parse,
every emitted chunk has non-empty text), and `enumerate` in `main` assigns
consecutive zero-based ids equal to the position in the parsed output; in
particular 7 lines with lines 3 and 5 malformed yield exactly 5 items with
ids 0-4. -/
theorem jsonl_loader_skips_and_ids (ls : List JsonLine) :
    loadFromJsonl ls = ls.filterMap parseJsonLine ∧
    (loadFromJsonl ls).enum.map Prod.fst = List.range (loadFromJsonl ls).length ∧
    ((loadFromJsonl ls).all fun c => c.text != "") = true ∧
    (loadFromJsonl sevenLineInput).length = 5 ∧
    (loadFromJsonl sevenLineInput).enum.map Prod.fst = [0, 1, 2, 3, 4] := by
  refine ⟨loadFromJsonl_eq_filterMap ls, List.enum_map_fst _, ?_, by decide, by decide⟩
  rw [List.all_eq_true]
  intro c hc
  rw [loadFromJsonl_eq_filterMap] at hc
  obtain ⟨l, _, hl⟩ := List.mem_filterMap.mp hc
  cases l with
  | blank => exact absurd hl (by simp [parseJsonLine])
  | malformed => exact absurd hl (by simp [parseJsonLine])
  | record t s p =>
    rw [parseJsonLine] at hl
    by_cases ht : pyStrip t = ""
    · rw [if_pos ht] at hl; exact absurd hl (by simp)
    · rw [if_neg ht] at hl
      obtain rfl := (Option.some_inj.mp hl).symm
      simpa using ht

/-- Claim C9: when loading the legacy text chunk format, the line-based
parsers (JSON-per-line, TSV, `|||`) win exactly when they jointly yield at
least 5 items; otherwise their partial result is discarded and the
header-block parse becomes the final result (possibly empty). -/
theorem txt_loader_threshold (lines : List TxtLine)
    (blocks : List (String × Int × String)) :
    (5 ≤ (lines.filterMap parseTxtLine).length →
      loadFromTxt lines blocks = lines.filterMap parseTxtLine) ∧
    ((lines.filterMap parseTxtLine).length < 5 →
      loadFromTxt lines blocks = parseBlocks blocks) := by
  constructor
  · intro h
    simp only [loadFromTxt]
    rw [if_pos h]
  · intro h
    simp only [loadFromTxt]
    rw [if_neg (by omega)]

/-- Witness for C9: one parsed TSV line is below the threshold, so the
block parse of the same file is the final result. -/
theorem txt_loader_threshold_witness :
    (txtLinesEx.filterMap parseTxtLine).length < 5 ∧
    loadFromTxt txtLinesEx txtBlocksEx = parseBlocks txtBlocksEx :=
  ⟨by decide, (txt_loader_threshold txtLinesEx txtBlocksEx).2 (by decide)⟩

/-- Claim C7: in each backoff variant the delay slept before the next
attempt is monotonically non-decreasing in the attempt index: linear
`(attempt+1)*backoff` for `backoff ≥ 0`, the template's
`backoff_base ** attempt + 0.1 * attempt` for `backoff_base ≥ 1`, and the
clients' `2 ** attempt`. -/
theorem backoff_monotone :
    (∀ backoff : ℚ, 0 ≤ backoff →
      ∀ a : ℕ, linearBackoffDelay backoff a ≤ linearBackoffDelay backoff (a + 1)) ∧
    (∀ base : ℚ, 1 ≤ base →
      ∀ a : ℕ, templateBackoffDelay base a ≤ templateBackoffDelay base (a + 1)) ∧
    (∀ a : ℕ, clientsBackoffDelay a ≤ clientsBackoffDelay (a + 1)) := by
  refine ⟨?_, ?_, ?_⟩
  · intro backoff hb a
    unfold linearBackoffDelay
    push_cast
    nlinarith [Nat.cast_nonneg (α := ℚ) a]
  · intro base hb a
    unfold templateBackoffDelay
    push_cast
    have h1 : base ^ a ≤ base ^ (a + 1) := pow_le_pow_right₀ hb (Nat.le_succ a)
    have h2 : (1 / 10 : ℚ) * a ≤ (1 / 10 : ℚ) * ((a : ℚ) + 1) := by
      nlinarith [Nat.cast_nonneg (α := ℚ) a]
    linarith
  · intro a
    unfold clientsBackoffDelay
    exact pow_le_pow_right₀ (by norm_num) (Nat.le_succ a)

/-- Witness for C7: the three monotonicity facts at the source's own
parameters (`backoff = 1.2`, `backoff_base = 1.8`) and attempt 0. -/
theorem backoff_monotone_witness :
    (0 ≤ (6 / 5 : ℚ) ∧ linearBackoffDelay (6 / 5) 0 ≤ linearBackoffDelay (6 / 5) 1) ∧
    (1 ≤ (9 / 5 : ℚ) ∧ templateBackoffDelay (9 / 5) 0 ≤ templateBackoffDelay (9 / 5) 1) ∧
    clientsBackoffDelay 0 ≤ clientsBackoffDelay 1 :=
  ⟨⟨by norm_num, backoff_monotone.1 (6 / 5) (by norm_num) 0⟩,
   ⟨by norm_num, backoff_monotone.2.1 (9 / 5) (by norm_num) 0⟩,
   backoff_monotone.2.2 0⟩

/-- Every state of the streaming answer sink holds at most one pending
record: the only states are post-write states (empty pending) and the
moment one completed record awaits its immediate write+flush. -/
theorem answerSinkGo_pending {α : Type} (rs : List α) :
    ∀ (written : List α) (s : SinkState α),
      s ∈ answerSinkGo written rs → s.pending.length ≤ 1 := by
  induction rs with
  | nil =>
    intro written s hs
    rw [answerSinkGo] at hs
    obtain rfl := List.mem_singleton.mp hs
    simp
  | cons r rest ih =>
    intro written s hs
    rw [answerSinkGo, List.mem_cons, List.mem_cons] at hs
    rcases hs with rfl | rfl | hs
    · simp
    · simp
    · exact ih (written ++ [r]) s hs

/-- Counterexample to claim C4 (as stated over both cited sinks): in the
template main loop (`llm_parallel_template.py:234-250`) the state where
both completed results are buffered and nothing has been written is
reachable — two pending (completed-but-unwritten) records at once,
contradicting "at no point more than one pending record". -/
theorem sink_template_buffers_counterexample :
    (⟨[], [0, 1]⟩ : SinkState Nat) ∈ templateSinkStates [0, 1] ∧
    (SinkState.pending (α := Nat) ⟨[], [0, 1]⟩).length = 2 := by
  constructor
  · decide
  · rfl

/-- Amended claim C4: the streaming answer sink
(`core_parallel(answer).py:264-289`) writes each completed result
immediately and flushes after every write, so it never holds more than one
pending record; the template runner instead accumulates every completed
result in memory (all of them are simultaneously pending) and writes them
only once after the pool drains. -/
theorem sink_single_pending_amended :
    (∀ (α : Type) (rs : List α) (s : SinkState α),
      s ∈ answerSinkStates rs → s.pending.length ≤ 1) ∧
    (∀ (α : Type) (rs : List α),
      (⟨[], rs⟩ : SinkState α) ∈ templateSinkStates rs ∧
      (⟨rs, []⟩ : SinkState α) ∈ templateSinkStates rs) := by
  constructor
  · intro α rs s hs
    exact answerSinkGo_pending rs [] s hs
  · intro α rs
    constructor
    · apply List.mem_append_left
      apply List.mem_map.mpr
      exact ⟨rs.length, List.mem_range.mpr (by omega), by rw [List.take_length]⟩
    · exact List.mem_append_right _ (List.mem_singleton.mpr rfl)

/-- Witness for the amended C4: the completion moment of a concrete
one-record run of the answer sink holds exactly one pending record. -/
theorem sink_single_pending_witness :
    (⟨[], [7]⟩ : SinkState Nat) ∈ answerSinkStates [7] ∧
    (SinkState.pending (α := Nat) ⟨[], [7]⟩).length ≤ 1 :=
  ⟨by decide, sink_single_pending_amended.1 Nat [7] ⟨[], [7]⟩ (by decide)⟩

/-- Every record produced by the `_one_job` loop echoes the submission
index as its `chunk_id`. -/
theorem oneJobAux_chunk_id (invoker : Nat → Except String (List String))
    (idx : Nat) (c : Chunk) (ct : String) :
    ∀ (remaining attempt : Nat),
      (oneJobAux invoker idx c ct remaining attempt).record.chunk_id = idx := by
  intro remaining
  induction remaining with
  | zero =>
    intro attempt
    rw [oneJobAux]
    cases invoker attempt <;> rfl
  | succ r ih =>
    intro attempt
    rw [oneJobAux]
    cases h : invoker attempt with
    | ok ks => rfl
    | error e => exact ih (attempt + 1)

/-- The success-path coercion always yields exactly three keywords. -/
theorem coerceKeywords_length (ks : List String) :
    (coerceKeywords ks).length = 3 := by
  simp only [coerceKeywords]
  split
  · simp
  · split
    · next h0 h3 =>
      have h1 : 0 < (ks.filter fun k => pyStrip k ≠ "").length :=
        List.length_pos.mpr h0
      simp only [List.length_take, List.length_append, List.length_map,
        List.length_range]
      omega
    · next h0 h3 =>
      simp only [List.length_take]
      omega

/-- Every record produced by the `_one_job` loop carries exactly three
keywords, on the success path and on the exhausted-retries path alike. -/
theorem oneJobAux_keywords_length (invoker : Nat → Except String (List String))
    (idx : Nat) (c : Chunk) (ct : String) :
    ∀ (remaining attempt : Nat),
      ((oneJobAux invoker idx c ct remaining attempt).record.keywords).length = 3 := by
  intro remaining
  induction remaining with
  | zero =>
    intro attempt
    rw [oneJobAux]
    cases h : invoker attempt with
    | ok ks => exact coerceKeywords_length ks
    | error e => rfl
  | succ r ih =>
    intro attempt
    rw [oneJobAux]
    cases h : invoker attempt with
    | ok ks => exact coerceKeywords_length ks
    | error e => exact ih (attempt + 1)

/-- When every attempt raises, the `_one_job` loop runs through all its
remaining retries and produces the exhausted-retries record of the last
attempt. -/
theorem oneJobAux_always_error (invoker : Nat → Except String (List String))
    (errs : Nat → String) (h : ∀ a, invoker a = Except.error (errs a))
    (idx : Nat) (c : Chunk) (ct : String) :
    ∀ (remaining attempt : Nat),
      oneJobAux invoker idx c ct remaining attempt =
        { record := makeRecord idx c ct errorFallbackKeywords (some (errs (attempt + remaining)))
          calls := attempt + remaining + 1 } := by
  intro remaining
  induction remaining with
  | zero =>
    intro attempt
    rw [oneJobAux, h attempt]
    simp
  | succ r ih =>
    intro attempt
    rw [oneJobAux, h attempt]
    rw [ih (attempt + 1)]
    have harith : attempt + 1 + r = attempt + (r + 1) := by omega
    rw [harith]

/-- Claim C2: with an LLM-invoking function that raises on every call
(attempt `a` raising message `errs a`), `_one_job` makes exactly
`retries + 1` invocation attempts and returns — rather than raises — a
failure record whose `error` field carries the last exception message (the
message of attempt `retries`; Python omits the key for the empty string,
which no real exception rendering in this pipeline produces) and whose
keywords are the error-fallback placeholders.  Non-propagation is the type
of `oneJob` itself: it is a total function into `JobOutcome`, and the
`.error` outcomes of the invoker are consumed by the loop. -/
theorem runner_retry_bound (invoker : Nat → Except String (List String))
    (errs : Nat → String) (retries idx : Nat) (c : Chunk) (ct : String)
    (h : ∀ a, invoker a = Except.error (errs a)) :
    (oneJob invoker retries idx c ct).calls = retries + 1 ∧
    (errs retries ≠ "" →
      (oneJob invoker retries idx c ct).record.error = some (errs retries)) ∧
    (oneJob invoker retries idx c ct).record.keywords = errorFallbackKeywords := by
  unfold oneJob
  rw [oneJobAux_always_error invoker errs h idx c ct retries 0]
  refine ⟨by simp, ?_, rfl⟩
  intro hne
  simp only [makeRecord, Nat.zero_add]
  rw [if_neg hne]

/-- Witness for C2: a mock raising `boom_a` on attempt `a`, with
`retries = 2`, makes exactly 3 attempts and records the message of the
last one. -/
theorem runner_retry_bound_witness :
    (oneJob failingInvoker 2 0 chunkEx "general").calls = 3 ∧
    (oneJob failingInvoker 2 0 chunkEx "general").record.error = some (errsEx 2) :=
  ⟨(runner_retry_bound failingInvoker errsEx 2 0 chunkEx "general" fun _ => rfl).1,
   (runner_retry_bound failingInvoker errsEx 2 0 chunkEx "general" fun _ => rfl).2.1
     (by decide)⟩

/-- A first attempt whose invocation returns a value makes the `_one_job`
loop succeed immediately, whatever retry budget remains. -/
theorem oneJobAux_first_ok (invoker : Nat → Except String (List String))
    (idx : Nat) (c : Chunk) (ct : String) (remaining attempt : Nat)
    (l : List String) (h : invoker attempt = Except.ok l) :
    oneJobAux invoker idx c ct remaining attempt =
      { record := makeRecord idx c ct (coerceKeywords l) none
        calls := attempt + 1 } := by
  cases remaining <;> rw [oneJobAux, h]

/-- `generate_keywords` never raises: every branch — empty input, a raised
LLM exception, invalid extraction, and a valid extraction — returns a
value. -/
theorem generateKeywords_isOk (llmCall : Except String (List String))
    (text : String) (n : Nat) (lang : String) :
    ∃ l, generateKeywords llmCall text n lang = Except.ok l := by
  unfold generateKeywords
  by_cases htext : pyStrip text = ""
  · exact ⟨_, by rw [if_pos htext]⟩
  · rw [if_neg htext]
    cases llmCall with
    | error e => exact ⟨_, rfl⟩
    | ok ks =>
      by_cases hv : isValidKeywords (postprocessKeywords ks lang n) lang
      · refine ⟨postprocessKeywords ks lang n, ?_⟩
        simp [hv]
      · refine ⟨generateFallbackKeywords lang n "invalid_extraction", ?_⟩
        simp [hv]

/-- Claim C10: `generate_keywords` returns a keyword list for every input
and never propagates an exception — empty input, a raised LLM exception and
an invalid extraction all land in the deterministic fallback generator —
so, when `_one_job` invokes it, the runner's exception branch is
unreachable: the job succeeds on its first attempt, makes exactly one
invocation, and its record carries no error field. -/
theorem generate_keywords_total :
    (∀ (llmCall : Except String (List String)) (text : String) (n : Nat) (lang : String),
      ∃ l, generateKeywords llmCall text n lang = Except.ok l) ∧
    (∀ (llm : Nat → Except String (List String)) (text lang : String)
      (retries idx : Nat) (c : Chunk) (ct : String),
      (oneJob (fun a => generateKeywords (llm a) text 3 lang) retries idx c ct).calls = 1 ∧
      (oneJob (fun a => generateKeywords (llm a) text 3 lang) retries idx c ct).record.error
        = none) := by
  refine ⟨generateKeywords_isOk, ?_⟩
  intro llm text lang retries idx c ct
  obtain ⟨l, hl⟩ := generateKeywords_isOk (llm 0) text 3 lang
  rw [oneJob, oneJobAux_first_ok _ idx c ct retries 0 l hl]
  exact ⟨rfl, rfl⟩

/-- The dispatched job list pairs submission index `i` with chunk `i`, so
its projected ids are exactly `range N` in submission order. -/
theorem keywordJobs_map_chunk_id (invoker : Nat → Nat → Except String (List String))
    (retries : Nat) (detect : String → String) (chunks : List Chunk) :
    (keywordJobs invoker retries detect chunks).map (fun r => r.chunk_id)
      = List.range chunks.length := by
  unfold keywordJobs
  rw [List.map_map]
  have hfun : ((fun r : KRecord => r.chunk_id) ∘
      fun p : Nat × Chunk =>
        (oneJob (invoker p.1) retries p.1 p.2 (detect p.2.text)).record)
      = Prod.fst := by
    funext p
    exact oneJobAux_chunk_id (invoker p.1) p.1 p.2 (detect p.2.text) retries 0
  rw [hfun, List.enum_map_fst]

/-- The job list has one entry per chunk. -/
theorem keywordJobs_length (invoker : Nat → Nat → Except String (List String))
    (retries : Nat) (detect : String → String) (chunks : List Chunk) :
    (keywordJobs invoker retries detect chunks).length = chunks.length := by
  unfold keywordJobs
  rw [List.length_map, List.enum_length]

/-- Reading a list back through `range`-indexed lookups reproduces it. -/
theorem filterMap_getElem_range {α : Type} (l : List α) :
    (List.range l.length).filterMap (fun i => l[i]?) = l := by
  induction l with
  | nil => simp
  | cons a t ih =>
    rw [List.length_cons, List.range_succ_eq_map, List.filterMap_cons]
    simp only [List.getElem?_cons_zero]
    rw [List.filterMap_map]
    have hfun : ((fun i => (a :: t)[i]?) ∘ Nat.succ) = fun i => t[i]? := by
      funext i
      simp [Function.comp, List.getElem?_cons_succ]
    rw [hfun, ih]

/-- Collecting the jobs in any completion order that is a permutation of
the submission indices permutes the job list. -/
theorem perm_filterMap_getElem {α : Type} (jobs : List α) (order : List Nat)
    (h : order.Perm (List.range jobs.length)) :
    (order.filterMap fun i => jobs[i]?).Perm jobs := by
  have hp := List.Perm.filterMap (fun i => jobs[i]?) h
  rwa [filterMap_getElem_range] at hp

/-- Whatever the worker count, a completed run whose completion order
permutes the submission indices produces ids that permute `range N`. -/
theorem keywordMainOutput_ids_perm (invoker : Nat → Nat → Except String (List String))
    (retries : Nat) (detect : String → String) (chunks : List Chunk)
    (workers : Nat) (order : List Nat)
    (horder : order.Perm (List.range chunks.length)) :
    ((keywordMainOutput invoker retries detect chunks workers order).map
      fun r => r.chunk_id).Perm (List.range chunks.length) := by
  unfold keywordMainOutput
  by_cases h1 : workers = 1
  · rw [if_pos h1, keywordJobs_map_chunk_id]
  · rw [if_neg h1]
    have hjobs := perm_filterMap_getElem
      (keywordJobs invoker retries detect chunks) order
      (by rwa [keywordJobs_length])
    have hmap := hjobs.map fun r => r.chunk_id
    rwa [keywordJobs_map_chunk_id] at hmap

/-- Claim C1: for every input with `N` loaded work items and every
`worker_count ≥ 1`, a completed run of the keyword dispatch loop writes
exactly `N` result lines, whose `chunk_id`s are a permutation of
`[0, N)` — pairwise distinct, each below `N` — whether each item succeeded
or failed (the invoker behaviour is arbitrary). -/
theorem keyword_dispatch_no_loss (invoker : Nat → Nat → Except String (List String))
    (retries : Nat) (detect : String → String) (chunks : List Chunk)
    (workers : Nat) (order : List Nat) (_hw : 1 ≤ workers)
    (horder : order.Perm (List.range chunks.length)) :
    (keywordMainOutput invoker retries detect chunks workers order).length
      = chunks.length ∧
    ((keywordMainOutput invoker retries detect chunks workers order).map
      fun r => r.chunk_id).Perm (List.range chunks.length) ∧
    ((keywordMainOutput invoker retries detect chunks workers order).map
      fun r => r.chunk_id).Nodup ∧
    ∀ r ∈ keywordMainOutput invoker retries detect chunks workers order,
      r.chunk_id < chunks.length := by
  have hperm := keywordMainOutput_ids_perm invoker retries detect chunks
    workers order horder
  refine ⟨?_, hperm, hperm.nodup_iff.mpr (List.nodup_range _), ?_⟩
  · have := hperm.length_eq
    rwa [List.length_map, List.length_range] at this
  · intro r hr
    have : r.chunk_id ∈ (keywordMainOutput invoker retries detect chunks workers order).map
        fun x => x.chunk_id := List.mem_map.mpr ⟨r, hr, rfl⟩
    exact List.mem_range.mp (hperm.mem_iff.mp this)

/-- Witness for C1: a concrete two-chunk run with two workers completing in
reversed order writes two lines with ids a permutation of `range 2`. -/
theorem keyword_dispatch_no_loss_witness :
    (1 ≤ 2 ∧ ([1, 0] : List Nat).Perm (List.range chunksEx.length)) ∧
    (keywordMainOutput kwInvokerEx 2 detectEx chunksEx 2 [1, 0]).length
      = chunksEx.length :=
  ⟨⟨by decide, by decide⟩,
   (keyword_dispatch_no_loss kwInvokerEx 2 detectEx chunksEx 2 [1, 0]
     (by decide) (by decide)).1⟩

/-- Claim C5: with `workers = 1` the dispatcher degenerates to strictly
sequential processing — the output equals the job list in submission order,
so the ids are exactly `0, 1, ..., N-1` in order — while any
`workers > 1` run whose completion order permutes the submission indices
yields ids that are a permutation of the same set. -/
theorem sequential_degeneracy (invoker : Nat → Nat → Except String (List String))
    (retries : Nat) (detect : String → String) (chunks : List Chunk)
    (order : List Nat) :
    (keywordMainOutput invoker retries detect chunks 1 order
        = keywordJobs invoker retries detect chunks ∧
      (keywordMainOutput invoker retries detect chunks 1 order).map
        (fun r => r.chunk_id) = List.range chunks.length) ∧
    (∀ workers : Nat, 1 < workers → order.Perm (List.range chunks.length) →
      ((keywordMainOutput invoker retries detect chunks workers order).map
        fun r => r.chunk_id).Perm (List.range chunks.length)) := by
  constructor
  · constructor
    · rw [keywordMainOutput, if_pos rfl]
    · rw [keywordMainOutput, if_pos rfl]
      exact keywordJobs_map_chunk_id invoker retries detect chunks
  · intro workers _hw horder
    exact keywordMainOutput_ids_perm invoker retries detect chunks workers
      order horder

/-- Witness for C5: the concrete two-chunk run is written in submission
order with one worker, and its two-worker reversed completion is a
permutation of the same ids. -/
theorem sequential_degeneracy_witness :
    (keywordMainOutput kwInvokerEx 2 detectEx chunksEx 1 [1, 0]
        = keywordJobs kwInvokerEx 2 detectEx chunksEx) ∧
    (1 < 2 ∧ ([1, 0] : List Nat).Perm (List.range chunksEx.length)) ∧
    ((keywordMainOutput kwInvokerEx 2 detectEx chunksEx 2 [1, 0]).map
      fun r => r.chunk_id).Perm (List.range chunksEx.length) :=
  ⟨(sequential_degeneracy kwInvokerEx 2 detectEx chunksEx [1, 0]).1.1,
   ⟨by decide, by decide⟩,
   (sequential_degeneracy kwInvokerEx 2 detectEx chunksEx [1, 0]).2 2
     (by decide) (by decide)⟩

/-- Padding a short keyword list yields exactly three keywords. -/
theorem padKw_length (l : List String) (h : l.length ≤ 3) :
    (padKw l).length = 3 := by
  unfold padKw
  by_cases h3 : 3 ≤ l.length
  · rw [if_pos h3]; omega
  · rw [if_neg h3]
    have hlit : (["KW_1", "KW_2", "KW_3"] : List String).length = 3 := rfl
    simp only [List.length_append, List.length_drop, hlit]
    omega

/-- A keyword list already of length three is left unchanged by the pad. -/
theorem padKw_self (l : List String) (h : l.length = 3) : padKw l = l := by
  unfold padKw
  rw [if_pos (by omega)]

/-- Padding a short base-question list yields exactly `expectBase`
questions. -/
theorem padBase_length (l : List Question) (b : Nat) (h : l.length ≤ b) :
    (padBase l b).length = b := by
  unfold padBase
  simp only [List.length_append, List.length_map, List.length_range]
  omega

/-- A base-question list already of full length is left unchanged. -/
theorem padBase_self (l : List Question) (b : Nat) (h : l.length = b) :
    padBase l b = l := by
  unfold padBase
  rw [h]
  simp

/-- Padding a short keyword-question list yields exactly `expectKw`
questions. -/
theorem padKwQ_length (kw : String) (l : List Question) (k : Nat)
    (h : l.length ≤ k) : (padKwQ kw l k).length = k := by
  unfold padKwQ
  simp only [List.length_append, List.length_map, List.length_range]
  omega

/-- A keyword-question list already of full length is left unchanged. -/
theorem padKwQ_self (kw : String) (l : List Question) (k : Nat)
    (h : l.length = k) : padKwQ kw l k = l := by
  unfold padKwQ
  rw [h]
  simp

/-- The question block for one keyword always has exactly `expectKw`
entries. -/
theorem questionsFor_length (provided : List KwEntry) (k : Nat) (kw : String) :
    (questionsFor provided k kw).length = k := by
  unfold questionsFor
  apply padKwQ_length
  cases hf : findKwEntry provided kw with
  | none => simp
  | some e =>
    cases e with
    | junk => simp
    | entry kk qs =>
      cases qs with
      | none => simp
      | some l => simp [List.length_take_le]

/-- The field equations of `_normalize_questions`. -/
theorem normalizeQuestions_keywords_def (d : QData) (b k : Nat) :
    (normalizeQuestions d b k).keywords
      = padKw ((d.keywords.filterMap kvalFilter).take 3) := rfl

/-- The base-question field of the normalizer. -/
theorem normalizeQuestions_base_def (d : QData) (b k : Nat) :
    (normalizeQuestions d b k).base_questions
      = padBase ((d.base_questions.filterMap validQ).take b) b := rfl

/-- The keyword-question field of the normalizer. -/
theorem normalizeQuestions_kwq_def (d : QData) (b k : Nat) :
    (normalizeQuestions d b k).keyword_questions
      = (normalizeQuestions d b k).keywords.map
          (fun kw => ⟨kw, questionsFor d.keyword_questions k kw⟩) := rfl

/-- The normalizer always emits exactly three keywords. -/
theorem normalizeQuestions_keywords_length (d : QData) (b k : Nat) :
    (normalizeQuestions d b k).keywords.length = 3 := by
  rw [normalizeQuestions_keywords_def]
  exact padKw_length _ (List.length_take_le 3 _)

/-- The normalizer always emits exactly `expect_base` base questions. -/
theorem normalizeQuestions_base_length (d : QData) (b k : Nat) :
    (normalizeQuestions d b k).base_questions.length = b := by
  rw [normalizeQuestions_base_def]
  exact padBase_length _ b (List.length_take_le b _)

/-- A list of length three mapped to a constant is the constant triple. -/
theorem map_const_three {α : Type} (l : List α) (h : l.length = 3) (k : Nat) :
    l.map (fun _ => k) = [k, k, k] := by
  match l, h with
  | [a, b, c], _ => rfl

/-- Claim C3: payloads are coerced to the exact declared cardinality — the
keyword record always carries exactly 3 keywords whatever the raw LLM
response or failure pattern, and the normalized question payload always has
exactly 3 keywords, `base_n` base questions, and `per_kw_n` questions for
each of the 3 keywords, by truncating excess or padding with
placeholders. -/
theorem payload_cardinality_exact :
    (∀ (invoker : Nat → Except String (List String)) (retries idx : Nat)
      (c : Chunk) (ct : String),
      ((oneJob invoker retries idx c ct).record.keywords).length = 3) ∧
    (∀ (d : QData) (b k : Nat),
      (normalizeQuestions d b k).keywords.length = 3 ∧
      (normalizeQuestions d b k).base_questions.length = b ∧
      (normalizeQuestions d b k).keyword_questions.map (fun e => e.questions.length)
        = [k, k, k]) := by
  constructor
  · intro invoker retries idx c ct
    exact oneJobAux_keywords_length invoker idx c ct retries 0
  · intro d b k
    refine ⟨normalizeQuestions_keywords_length d b k,
      normalizeQuestions_base_length d b k, ?_⟩
    rw [normalizeQuestions_kwq_def, List.map_map]
    have hfun : ((fun e : KwOut => e.questions.length) ∘
        fun kw => (⟨kw, questionsFor d.keyword_questions k kw⟩ : KwOut))
        = fun _ => k := by
      funext kw
      exact questionsFor_length d.keyword_questions k kw
    rw [hfun]
    exact map_const_three _ (normalizeQuestions_keywords_length d b k) k

/-- Structure extensionality for normalized payloads. -/
theorem qout_ext (x y : QOut) (h1 : x.keywords = y.keywords)
    (h2 : x.base_questions = y.base_questions)
    (h3 : x.keyword_questions = y.keyword_questions) : x = y := by
  cases x
  cases y
  simp_all

/-- The field equations of the dump/parse round trip. -/
theorem toQData_keywords_def (o : QOut) :
    (toQData o).keywords = o.keywords.map KVal.str := rfl

/-- Base questions of the round trip. -/
theorem toQData_base_def (o : QOut) :
    (toQData o).base_questions = o.base_questions.map QEntry.q := rfl

/-- Keyword questions of the round trip. -/
theorem toQData_kwq_def (o : QOut) :
    (toQData o).keyword_questions = o.keyword_questions.map fun e =>
      KwEntry.entry e.keyword (some (e.questions.map QEntry.q)) := rfl

/-- Keyword strings whose stripped form is non-empty survive the keyword
filter unchanged. -/
theorem kval_roundtrip (l : List String) (h : ∀ s ∈ l, pyStrip s ≠ "") :
    (l.map KVal.str).filterMap kvalFilter = l := by
  induction l with
  | nil => rfl
  | cons a t ih =>
    rw [List.map_cons, List.filterMap_cons]
    have ha : kvalFilter (KVal.str a) = some a := by
      rw [kvalFilter, if_neg (h a (List.mem_cons_self a t))]
    rw [ha, ih fun s hs => h s (List.mem_cons_of_mem a hs)]

/-- Questions with non-empty text survive the question filter unchanged. -/
theorem validQ_roundtrip (l : List Question) (h : ∀ q ∈ l, q.text ≠ "") :
    (l.map QEntry.q).filterMap validQ = l := by
  induction l with
  | nil => rfl
  | cons a t ih =>
    rw [List.map_cons, List.filterMap_cons]
    have ha : validQ (QEntry.q a) = some a := by
      rw [validQ, if_neg (h a (List.mem_cons_self a t))]
    rw [ha, ih fun q hq => h q (List.mem_cons_of_mem a hq)]

/-- Every keyword the normalizer emits has a non-empty stripped form:
filtered keywords by the filter condition, padded `KW_i` literally. -/
theorem normalizeQuestions_keywords_strip (d : QData) (b k : Nat) :
    ∀ s ∈ (normalizeQuestions d b k).keywords, pyStrip s ≠ "" := by
  intro s hs
  rw [normalizeQuestions_keywords_def] at hs
  unfold padKw at hs
  have hbase : ∀ s2 ∈ (d.keywords.filterMap kvalFilter).take 3, pyStrip s2 ≠ "" := by
    intro s2 hs2
    obtain ⟨v, _hv, hveq⟩ := List.mem_filterMap.mp (List.mem_of_mem_take hs2)
    cases v with
    | junk => exact absurd hveq (by rw [kvalFilter]; exact Option.noConfusion)
    | str s0 =>
      rw [kvalFilter] at hveq
      by_cases h0 : pyStrip s0 = ""
      · rw [if_pos h0] at hveq
        exact absurd hveq (by exact Option.noConfusion)
      · rw [if_neg h0] at hveq
        obtain rfl := Option.some_inj.mp hveq
        exact h0
  by_cases h3 : 3 ≤ ((d.keywords.filterMap kvalFilter).take 3).length
  · rw [if_pos h3] at hs
    exact hbase s hs
  · rw [if_neg h3] at hs
    rcases List.mem_append.mp hs with hl | hr
    · exact hbase s hl
    · have hlit := List.mem_of_mem_drop hr
      simp only [List.mem_cons, List.not_mem_nil, or_false] at hlit
      rcases hlit with rfl | rfl | rfl <;> decide

/-- Every base question the normalizer emits has non-empty text: surviving
questions by the filter condition, placeholders by their literal prefix. -/
theorem normalizeQuestions_base_texts (d : QData) (b k : Nat) :
    ∀ q ∈ (normalizeQuestions d b k).base_questions, q.text ≠ "" := by
  intro q hq
  rw [normalizeQuestions_base_def] at hq
  unfold padBase at hq
  rcases List.mem_append.mp hq with hl | hr
  · obtain ⟨e, _he, heq⟩ := List.mem_filterMap.mp (List.mem_of_mem_take hl)
    cases e with
    | junk => exact absurd heq (by rw [validQ]; exact Option.noConfusion)
    | q q0 =>
      rw [validQ] at heq
      by_cases h0 : q0.text = ""
      · rw [if_pos h0] at heq
        exact absurd heq (by exact Option.noConfusion)
      · rw [if_neg h0] at heq
        obtain rfl := Option.some_inj.mp heq
        exact h0
  · obtain ⟨j, _hj, rfl⟩ := List.mem_map.mp hr
    show (basePlaceholder _).text ≠ ""
    unfold basePlaceholder
    exact str_append_ne_left _ _ (str_append_ne_left _ _ (by decide))

/-- Every question in a per-keyword block has non-empty text. -/
theorem questionsFor_texts (provided : List KwEntry) (k : Nat) (kw : String) :
    ∀ q ∈ questionsFor provided k kw, q.text ≠ "" := by
  intro q hq
  unfold questionsFor padKwQ at hq
  rcases List.mem_append.mp hq with hl | hr
  · split at hl
    · obtain ⟨e2, _he2, heq⟩ := List.mem_filterMap.mp (List.mem_of_mem_take hl)
      cases e2 with
      | junk => exact absurd heq (by rw [validQ]; exact Option.noConfusion)
      | q q0 =>
        rw [validQ] at heq
        by_cases h0 : q0.text = ""
        · rw [if_pos h0] at heq
          exact absurd heq (by exact Option.noConfusion)
        · rw [if_neg h0] at heq
          obtain rfl := Option.some_inj.mp heq
          exact h0
    · exact absurd hl (List.not_mem_nil q)
  · obtain ⟨j, _hj, rfl⟩ := List.mem_map.mp hr
    show (kwPlaceholder kw _).text ≠ ""
    unfold kwPlaceholder
    exact str_append_ne_left _ _ (str_append_ne_left _ _
      (str_append_ne_left _ _ (str_append_ne_left _ _ (by decide))))

/-- In an entry list built over keywords whose stripped-lowercased forms
are pairwise distinct, the candidate search for a stripped member keyword
finds that keyword's own entry. -/
theorem find_entry_first (kws : List String)
    (hnd : (kws.map fun s => pyLower (pyStrip s)).Nodup)
    (kw : String) (hkw : kw ∈ kws) (hskw : pyStrip kw = kw)
    (F : String → Option (List QEntry)) :
    ((kws.map fun kw0 => KwEntry.entry kw0 (F kw0)).find? fun e =>
      match e with
      | .entry k2 _ => pyLower (pyStrip k2) == pyLower kw
      | .junk => false)
      = some (KwEntry.entry kw (F kw)) := by
  induction kws with
  | nil => cases hkw
  | cons x t ih =>
    rw [List.map_cons, List.nodup_cons] at hnd
    rw [List.map_cons, List.find?_cons]
    by_cases hx : pyLower (pyStrip x) = pyLower kw
    · have hb : (pyLower (pyStrip x) == pyLower kw) = true := beq_iff_eq.mpr hx
      simp only [hb]
      have hxkw : kw = x := by
        rcases List.mem_cons.mp hkw with rfl | hat
        · rfl
        · exfalso
          apply hnd.1
          have : pyLower (pyStrip x) = pyLower (pyStrip kw) := by rw [hskw, hx]
          rw [this]
          exact List.mem_map_of_mem (fun s => pyLower (pyStrip s)) hat
      subst hxkw
      rfl
    · have hb : (pyLower (pyStrip x) == pyLower kw) = false :=
        beq_eq_false_iff_ne.mpr hx
      simp only [hb]
      have hat : kw ∈ t := by
        rcases List.mem_cons.mp hkw with rfl | hat
        · exact absurd (by rw [hskw]) hx
        · exact hat
      exact ih hnd.2 hat

/-- Re-normalizing reproduces the keyword triple unconditionally: the
emitted keywords all pass the filter, are already exactly three, and the
pad leaves a full list unchanged. -/
theorem normalize_keywords_roundtrip (d : QData) (b k b2 k2 : Nat) :
    (normalizeQuestions (toQData (normalizeQuestions d b k)) b2 k2).keywords
      = (normalizeQuestions d b k).keywords := by
  rw [normalizeQuestions_keywords_def, toQData_keywords_def]
  rw [kval_roundtrip _ (normalizeQuestions_keywords_strip d b k)]
  rw [List.take_of_length_le (le_of_eq (normalizeQuestions_keywords_length d b k))]
  exact padKw_self _ (normalizeQuestions_keywords_length d b k)

/-- Re-normalizing reproduces the base questions unconditionally. -/
theorem normalize_base_roundtrip (d : QData) (b k : Nat) :
    (normalizeQuestions (toQData (normalizeQuestions d b k)) b k).base_questions
      = (normalizeQuestions d b k).base_questions := by
  rw [normalizeQuestions_base_def, toQData_base_def]
  rw [validQ_roundtrip _ (normalizeQuestions_base_texts d b k)]
  rw [List.take_of_length_le (le_of_eq (normalizeQuestions_base_length d b k))]
  exact padBase_self _ b (normalizeQuestions_base_length d b k)

/-- With pairwise case-insensitively distinct, already-stripped normalized
keywords, re-normalizing reproduces each keyword's question block. -/
theorem questionsFor_roundtrip (d : QData) (b k : Nat)
    (hnd : ((normalizeQuestions d b k).keywords.map fun s => pyLower (pyStrip s)).Nodup)
    (hstr : ∀ s ∈ (normalizeQuestions d b k).keywords, pyStrip s = s)
    (kw : String) (hkw : kw ∈ (normalizeQuestions d b k).keywords) :
    questionsFor (toQData (normalizeQuestions d b k)).keyword_questions k kw
      = questionsFor d.keyword_questions k kw := by
  have hentries : (toQData (normalizeQuestions d b k)).keyword_questions
      = (normalizeQuestions d b k).keywords.map fun kw0 =>
          KwEntry.entry kw0
            (some ((questionsFor d.keyword_questions k kw0).map QEntry.q)) := by
    rw [toQData_kwq_def, normalizeQuestions_kwq_def d b k, List.map_map]
    rfl
  have hfind : findKwEntry (toQData (normalizeQuestions d b k)).keyword_questions kw
      = some (KwEntry.entry kw
          (some ((questionsFor d.keyword_questions k kw).map QEntry.q))) := by
    rw [hentries]
    unfold findKwEntry
    exact find_entry_first _ hnd kw hkw (hstr kw hkw)
      fun kw0 => some ((questionsFor d.keyword_questions k kw0).map QEntry.q)
  unfold questionsFor
  rw [hfind]
  show padKwQ kw
      ((((questionsFor d.keyword_questions k kw).map QEntry.q).filterMap validQ).take k) k
    = padKwQ kw _ k
  rw [validQ_roundtrip _ (questionsFor_texts d.keyword_questions k kw)]
  rw [List.take_of_length_le (le_of_eq (questionsFor_length d.keyword_questions k kw))]
  show padKwQ kw (questionsFor d.keyword_questions k kw) k
    = questionsFor d.keyword_questions k kw
  exact padKwQ_self kw _ k (questionsFor_length d.keyword_questions k kw)

/-- Counterexample to claim C8: normalization is not idempotent for every
raw input.  For the extracted object `{"keywords": ["A", "a"]}` (with
`expect_base = expect_kw = 1`) the first normalization pads per-keyword
placeholder questions mentioning "A" and "a" respectively, but on
re-normalization the case-insensitive candidate search resolves the
keyword "a" to the entry of "A", changing its question text. -/
theorem normalize_idempotent_counterexample :
    normalizeQuestions (toQData (normalizeQuestions caseCollidingData 1 1)) 1 1
      ≠ normalizeQuestions caseCollidingData 1 1 := by decide

/-- Amended claim C8: re-normalization is a no-op (a) for the question
normalizer whenever the normalized keywords are already stripped and
pairwise distinct after strip+lowercase — the situation the
case-colliding counterexample violates — and (b) for the template's answer
parse whenever the normalized answer is non-empty and strip-stable (an
empty or whitespace-trailing truncated answer re-normalizes to the
serialized text instead). -/
theorem normalize_idempotent_amended :
    (∀ (d : QData) (b k : Nat),
      ((normalizeQuestions d b k).keywords.map fun s => pyLower (pyStrip s)).Nodup →
      (∀ s ∈ (normalizeQuestions d b k).keywords, pyStrip s = s) →
      normalizeQuestions (toQData (normalizeQuestions d b k)) b k
        = normalizeQuestions d b k) ∧
    (∀ raw : AnswerRaw,
      pyStrip (parseAnswerResponse raw).answer = (parseAnswerResponse raw).answer →
      (parseAnswerResponse raw).answer ≠ "" →
      parseAnswerResponse (serializeAnswer (parseAnswerResponse raw))
        = parseAnswerResponse raw) := by
  constructor
  · intro d b k hnd hstr
    apply qout_ext
    · exact normalize_keywords_roundtrip d b k b k
    · exact normalize_base_roundtrip d b k
    · rw [normalizeQuestions_kwq_def (toQData (normalizeQuestions d b k)) b k]
      rw [normalize_keywords_roundtrip d b k b k]
      rw [normalizeQuestions_kwq_def d b k]
      apply List.map_congr_left
      intro kw hkw
      rw [questionsFor_roundtrip d b k hnd hstr kw hkw]
  · intro raw hstrip hne
    show parseAnswerResponse
        ⟨some (some (parseAnswerResponse raw).answer), _⟩ = parseAnswerResponse raw
    rw [parseAnswerResponse]
    simp only
    rw [if_neg (by rw [hstrip]; exact hne), hstrip]

/-- Witness for the amended C8: a concrete distinct-keyword normalization
and a concrete non-empty answer payload, both reproduced verbatim by
re-normalization. -/
theorem normalize_idempotent_witness :
    ((((normalizeQuestions distinctKeywordData 1 1).keywords.map
        fun s => pyLower (pyStrip s)).Nodup ∧
      normalizeQuestions (toQData (normalizeQuestions distinctKeywordData 1 1)) 1 1
        = normalizeQuestions distinctKeywordData 1 1)) ∧
    (pyStrip (parseAnswerResponse answerRawEx).answer
        = (parseAnswerResponse answerRawEx).answer ∧
      parseAnswerResponse (serializeAnswer (parseAnswerResponse answerRawEx))
        = parseAnswerResponse answerRawEx) :=
  ⟨⟨by decide,
    normalize_idempotent_amended.1 distinctKeywordData 1 1 (by decide) (by decide)⟩,
   ⟨by decide,
    normalize_idempotent_amended.2 answerRawEx (by decide) (by decide)⟩⟩
